import Mathlib

/-!
Verification of the imagenet-browser hypermedia layer.

This file shallowly embeds the two source files of the repository —
`imagenet_browser/utils.py` (the Mason document builder and the uniform
error-response constructor) and `imagenet_browser/resources/synset.py`
(the Synset Collection / Synset Item / Hyponym Collection / Hyponym Item
request handlers) — as executable Lean definitions, and proves properties
of the embedded handlers.

Modelling conventions:
* A JSON value is the inductive `JsonVal`; a Mason document (a Python
  `dict` subclass) is an insertion-ordered association list
  `MasonDoc = List (String × JsonVal)`, with Python `dict` item
  assignment modelled by `dictSet` (update in place if the key exists,
  append otherwise).
* Persistent storage is `DBState`: the synset table (a list of rows,
  unique `wnid` enforced by the storage layer) plus the ordered
  hyponym-edge table (pairs `(wnid, hyponym_wnid)`; the per-synset
  relation collection `synset.hyponyms` is the subsequence of edges with
  the given owner, in insertion order).
* SQLAlchemy rows fetched in one session are identity-mapped: one object
  per primary key, so the source's `list.index(row)` / `list.remove(row)`
  identity checks coincide with equality of the `wnid` business key,
  which is how membership is embedded.
* An HTTP handler is a function from the state and the request data to
  `HttpResponse × DBState`; the second component is the storage state
  after the request.
* `models.py` and `constants.py` are not part of the given source; the
  validation schemas, page size, route URLs and profile constants they
  provide are modelled from the spec where marked.
-/

/-- A JSON value, as parsed from or serialized into a request/response
body.  Objects are insertion-ordered association lists, matching Python
dict semantics. -/
inductive JsonVal where
  | null : JsonVal
  | bool : Bool → JsonVal
  | num : Int → JsonVal
  | str : String → JsonVal
  | arr : List JsonVal → JsonVal
  | obj : List (String × JsonVal) → JsonVal

/-- A Mason document: the top-level ordered mapping held by a
`MasonBuilder` (a Python `dict` subclass). -/
def MasonDoc : Type := List (String × JsonVal)

/-- Lookup in an insertion-ordered mapping (Python `d[k]` /
`k in d`); keys are unique by construction, so first match suffices. -/
def dictGet {α : Type} (d : List (String × α)) (k : String) : Option α :=
  (d.find? (fun p => p.1 == k)).map (fun p => p.2)

/-- Python dict item assignment `d[k] = v`: if the key is present its
value is replaced in place (position preserved), otherwise the pair is
appended at the end. -/
def dictSet {α : Type} (d : List (String × α)) (k : String) (v : α) :
    List (String × α) :=
  if d.any (fun p => p.1 == k) then
    d.map (fun p => if p.1 == k then (k, v) else p)
  else
    d ++ [(k, v)]

/-- Python truthiness of a JSON value (`if not request.json` treats
`None`, `{}`, `[]`, `""`, `0` and `False` as absent). -/
def jsonTruthy : JsonVal → Bool
  | JsonVal.null => false
  | JsonVal.bool b => b
  | JsonVal.num n => n != 0
  | JsonVal.str s => s != ""
  | JsonVal.arr l => !l.isEmpty
  | JsonVal.obj l => !l.isEmpty

/-- Truthiness of `request.json`: `none` models a request without a JSON
body. -/
def hasJsonBody : Option JsonVal → Bool
  | none => false
  | some v => jsonTruthy v

/-- Modelled from the spec: the string constants of the missing
`constants.py` — the Mason media type. -/
def MASON : String := "application/vnd.mason+json"

/-- Modelled from the spec: link-relations documentation URL from the
missing `constants.py`. -/
def LINK_RELATIONS_URL : String := "/imagenet_browser/link-relations/"

/-- Modelled from the spec: synset profile URL from the missing
`constants.py`. -/
def SYNSET_PROFILE : String := "/profiles/synset/"

/-- Modelled from the spec: error-documentation profile URL from the
missing `constants.py`. -/
def ERROR_PROFILE : String := "/profiles/error/"

/-- Modelled from the spec: the routing collaborator
(`url_for("api.synsetcollection")`). -/
def urlSynsetCollection : String := "/api/synsets/"

/-- Modelled from the spec: `url_for("api.synsetitem", wnid=wnid)`. -/
def urlSynsetItem (wnid : String) : String :=
  "/api/synsets/" ++ wnid ++ "/"

/-- Modelled from the spec:
`url_for("api.synsethyponymcollection", wnid=wnid)`. -/
def urlSynsetHyponymCollection (wnid : String) : String :=
  "/api/synsets/" ++ wnid ++ "/hyponyms/"

/-- Modelled from the spec:
`url_for("api.synsethyponymitem", wnid=wnid, hyponym_wnid=h)`. -/
def urlSynsetHyponymItem (wnid hyponym_wnid : String) : String :=
  "/api/synsets/" ++ wnid ++ "/hyponyms/" ++ hyponym_wnid ++ "/"

/-- Modelled from the spec:
`url_for("api.synsetimagecollection", wnid=wnid)`. -/
def urlSynsetImageCollection (wnid : String) : String :=
  "/api/synsets/" ++ wnid ++ "/images/"

/-- `MasonBuilder.add_error` (utils.py lines 15–31): sets the reserved
`@error` field with the title as the single `@message` and a
`@messages` array holding exactly the one detail string (`None`
serializes as JSON null). -/
def add_error (d : MasonDoc) (title : String) (details : Option String) :
    MasonDoc :=
  dictSet d "@error" (JsonVal.obj
    [("@message", JsonVal.str title),
     ("@messages", JsonVal.arr
       [match details with
        | some s => JsonVal.str s
        | none => JsonVal.null])])

/-- `MasonBuilder.add_namespace` (utils.py lines 33–48): registers the
prefix under `@namespaces`, creating the mapping on first use; a repeated
prefix is overwritten. -/
def add_namespace (d : MasonDoc) (ns uri : String) : MasonDoc :=
  let nss := match dictGet d "@namespaces" with
    | some (JsonVal.obj l) => l
    | _ => []
  dictSet d "@namespaces"
    (JsonVal.obj (dictSet nss ns (JsonVal.obj [("name", JsonVal.str uri)])))

/-- The `@controls` mapping of a document (empty when absent). -/
def controlsOf (d : MasonDoc) : List (String × JsonVal) :=
  match dictGet d "@controls" with
  | some (JsonVal.obj cs) => cs
  | _ => []

/-- `MasonBuilder.add_control` (utils.py lines 50–68): ensures
`@controls` exists, stores the keyword options under the control name,
then sets the entry's `href` key to the href argument.  `kwargs` is the
ordered option list (`method`, `encoding`, `title`, `schema`, as
supplied); the `href` parameter being positional, it never occurs among
the keywords in the source, but `dictSet` covers either case exactly as
Python item assignment would. -/
def add_control (d : MasonDoc) (name href : String)
    (opts : List (String × JsonVal)) : MasonDoc :=
  dictSet d "@controls"
    (JsonVal.obj (dictSet (controlsOf d) name
      (JsonVal.obj (dictSet opts "href" (JsonVal.str href)))))

/-- Whether a named control is present on a document. -/
def hasControl (d : MasonDoc) (name : String) : Bool :=
  (dictGet (controlsOf d) name).isSome

/-- The `href` value stored under a named control, when present. -/
def controlHref (d : MasonDoc) (name : String) : Option JsonVal :=
  match dictGet (controlsOf d) name with
  | some (JsonVal.obj entry) => dictGet entry "href"
  | _ => none

/-- Structural validity for `add_control`: the `@controls` key, when
present, holds an object (this is an invariant of every document the
builder produces; a document violating it would make the source's item
assignment raise). -/
def ctrlsWellFormed (d : MasonDoc) : Prop :=
  ∀ v, dictGet d "@controls" = some v → ∃ cs, v = JsonVal.obj cs

/-- `create_error_response` (utils.py lines 174–182) body: a fresh
builder seeded with the request path under `resource_url`, the error
block, and a `profile` control pointing at the error profile. -/
def create_error_response_body (path title : String)
    (message : Option String) : MasonDoc :=
  let b : MasonDoc := [("resource_url", JsonVal.str path)]
  let b := add_error b title message
  add_control b "profile" ERROR_PROFILE []

/-- A row of the synset table (`models.py` `Synset`, fields as used by
the handlers): `wnid` (unique business key), `words`, `gloss`. -/
structure Synset where
  wnid : String
  words : String
  gloss : String
deriving DecidableEq, Repr

/-- The persistent storage state: the synset table and the ordered
hyponym-edge table.  An edge `(w, h)` means the synset with wnid `h` is
in the hyponym collection of the synset with wnid `w`, and edges with the
same owner are kept in insertion (append) order, matching the relation
collection. -/
structure DBState where
  synsets : List Synset
  edges : List (String × String)
deriving DecidableEq, Repr

/-- `Synset.query.filter_by(wnid=wnid).first()`. -/
def findSynset (st : DBState) (wnid : String) : Option Synset :=
  st.synsets.find? (fun s => s.wnid == wnid)

/-- The owner's relation collection `synset.hyponyms`: the rows reached
by the owner's edges, in edge order.  With a foreign-key-valid edge
table every edge resolves; `filterMap` drops unrepresentable dangling
edges. -/
def hyponymRowsOf (st : DBState) (wnid : String) : List Synset :=
  (st.edges.filter (fun e => e.1 == wnid)).filterMap
    (fun e => findSynset st e.2)

/-- Edge-table validity: the foreign-key constraint of the storage
layer — both endpoints of every edge are existing synsets. -/
def edgesValid (st : DBState) : Prop :=
  ∀ e ∈ st.edges, (findSynset st e.1).isSome ∧ (findSynset st e.2).isSome

/-- Python `int(s)` on a decimal string: optional surrounding
whitespace, optional sign, one or more digits; anything else raises
`ValueError` (`none`). -/
def pyDigits : List Char → Option Nat
  | [] => none
  | cs =>
    cs.foldl
      (fun acc c =>
        match acc with
        | none => none
        | some n => if c.isDigit then some (n * 10 + (c.toNat - 48)) else none)
      (some 0)

/-- Strip leading and trailing whitespace from a character list. -/
def pyStrip (cs : List Char) : List Char :=
  ((cs.dropWhile Char.isWhitespace).reverse.dropWhile Char.isWhitespace).reverse

/-- Python `int` applied to a string. -/
def pyInt (s : String) : Option Int :=
  match pyStrip s.toList with
  | '-' :: rest => (pyDigits rest).map (fun n => -(n : Int))
  | '+' :: rest => (pyDigits rest).map (fun n => (n : Int))
  | rest => (pyDigits rest).map (fun n => (n : Int))

/-- `int(request.args.get("start", default=0))`: an absent parameter
defaults to the integer 0 (which `int` maps to 0); a present parameter
is parsed by `int`, raising `ValueError` (`none`) on a non-integer
string. -/
def parseStart (arg : Option String) : Option Int :=
  match arg with
  | none => some (0 : Int)
  | some s => pyInt s

/-- Is the JSON value a string? -/
def isJsonStr : JsonVal → Bool
  | JsonVal.str _ => true
  | _ => false

/-- Modelled from the spec: `Synset.get_schema()` from the missing
`models.py` — a JSON-Schema object requiring `wnid`, `words` and `gloss`,
all strings.  `jsonschema.validate` succeeds iff the document is an
object carrying all three required keys with string values (additional
properties are unconstrained). -/
def validSynsetDoc : JsonVal → Bool
  | JsonVal.obj kvs =>
    ["wnid", "words", "gloss"].all (fun k =>
      match dictGet kvs k with
      | some v => isJsonStr v
      | none => false)
  | _ => false

/-- Modelled from the spec: `Synset.get_schema(wnid_only=True)` — the
identifier-only schema requiring just `wnid` (a string), used when
linking an existing synset as a hyponym. -/
def validWnidOnlyDoc : JsonVal → Bool
  | JsonVal.obj kvs =>
    match dictGet kvs "wnid" with
    | some v => isJsonStr v
    | none => false
  | _ => false

/-- `request.json[k]` for a key the schema guarantees to be a string
(the default is unreachable after validation). -/
def getStrField (j : JsonVal) (k : String) : String :=
  match j with
  | JsonVal.obj kvs =>
    match dictGet kvs k with
    | some (JsonVal.str s) => s
    | _ => ""
  | _ => ""

/-- Modelled from the spec: the JSON rendering of the synset schema, as
embedded in `schema=Synset.get_schema()` control options. -/
def synsetSchemaJson : JsonVal :=
  JsonVal.obj
    [("type", JsonVal.str "object"),
     ("required", JsonVal.arr
       [JsonVal.str "wnid", JsonVal.str "words", JsonVal.str "gloss"]),
     ("properties", JsonVal.obj
       [("wnid", JsonVal.obj [("type", JsonVal.str "string")]),
        ("words", JsonVal.obj [("type", JsonVal.str "string")]),
        ("gloss", JsonVal.obj [("type", JsonVal.str "string")])])]

/-- Modelled from the spec: the JSON rendering of the identifier-only
schema, embedded in `schema=Synset.get_schema(wnid_only=True)`. -/
def wnidOnlySchemaJson : JsonVal :=
  JsonVal.obj
    [("type", JsonVal.str "object"),
     ("required", JsonVal.arr [JsonVal.str "wnid"]),
     ("properties", JsonVal.obj
       [("wnid", JsonVal.obj [("type", JsonVal.str "string")])])]

/-- `ImagenetBrowserBuilder.add_control_add_synset` (utils.py
lines 76–87). -/
def add_control_add_synset (d : MasonDoc) : MasonDoc :=
  add_control d "imagenet_browser:add_synset" urlSynsetCollection
    [("method", JsonVal.str "POST"),
     ("encoding", JsonVal.str "json"),
     ("title", JsonVal.str "Add a new synset"),
     ("schema", synsetSchemaJson)]

/-- `ImagenetBrowserBuilder.add_control_edit_synset` (utils.py
lines 89–100). -/
def add_control_edit_synset (d : MasonDoc) (wnid : String) : MasonDoc :=
  add_control d "edit" (urlSynsetItem wnid)
    [("method", JsonVal.str "PUT"),
     ("encoding", JsonVal.str "json"),
     ("title", JsonVal.str "Edit this synset"),
     ("schema", synsetSchemaJson)]

/-- `ImagenetBrowserBuilder.add_control_delete_synset` (utils.py
lines 102–111). -/
def add_control_delete_synset (d : MasonDoc) (wnid : String) : MasonDoc :=
  add_control d "imagenet_browser:delete" (urlSynsetItem wnid)
    [("method", JsonVal.str "DELETE"),
     ("title", JsonVal.str "Delete this synset")]

/-- `ImagenetBrowserBuilder.add_control_add_hyponym` (utils.py
lines 113–124). -/
def add_control_add_hyponym (d : MasonDoc) (wnid : String) : MasonDoc :=
  add_control d "imagenet_browser:add_hyponym"
    (urlSynsetHyponymCollection wnid)
    [("method", JsonVal.str "POST"),
     ("encoding", JsonVal.str "json"),
     ("title", JsonVal.str "Add a new hyponym"),
     ("schema", wnidOnlySchemaJson)]

/-- `ImagenetBrowserBuilder.add_control_delete_hyponym` (utils.py
lines 126–135). -/
def add_control_delete_hyponym (d : MasonDoc) (wnid hyponym_wnid : String) :
    MasonDoc :=
  add_control d "imagenet_browser:delete"
    (urlSynsetHyponymItem wnid hyponym_wnid)
    [("method", JsonVal.str "DELETE"),
     ("title", JsonVal.str "Delete this hyponym")]

/-- An HTTP response as the handlers construct it: status code, an
optional Mason body (serialized with `json.dumps`), an optional
`Location` header, and the mimetype. -/
structure HttpResponse where
  status : Nat
  body : Option MasonDoc := none
  location : Option String := none
  mimetype : Option String := none

/-- `create_error_response` (utils.py lines 174–182): the uniform error
response, carrying the request path of the resource. -/
def errorResponse (code : Nat) (path title : String)
    (message : Option String) : HttpResponse :=
  { status := code
    body := some (create_error_response_body path title message)
    mimetype := some MASON }

/-- The sort key of `Synset.query.order_by(Synset.wnid)`. -/
def synLe (a b : Synset) : Prop := a.wnid ≤ b.wnid

instance : DecidableRel synLe :=
  fun a b => inferInstanceAs (Decidable (a.wnid ≤ b.wnid))

instance : IsTotal Synset synLe := ⟨fun a b => le_total a.wnid b.wnid⟩

instance : IsTrans Synset synLe := ⟨fun _ _ _ hab hbc => le_trans hab hbc⟩

/-- `Synset.query.order_by(Synset.wnid)`: the table sorted by the unique
`wnid` key, ascending. -/
def sortedSynsets (st : DBState) : List Synset :=
  st.synsets.insertionSort synLe

/-- SQL `OFFSET`: a negative offset behaves as zero (`Int.toNat` clamps
negatives to 0). -/
def sqlOffset {α : Type} (l : List α) (i : Int) : List α :=
  l.drop i.toNat

/-- Python list slicing `l[start:]` for a possibly negative `start`:
non-negative indices drop from the front, negative indices count from
the end. -/
def pySliceFrom {α : Type} (l : List α) (i : Int) : List α :=
  if 0 ≤ i then l.drop i.toNat
  else l.drop (l.length - (-i).toNat)

/-- A member of the Synset Collection `items` array (synset.py
lines 47–55): the minimal representation with `self` and `profile`
controls. -/
def synsetEntryDoc (s : Synset) : MasonDoc :=
  let b : MasonDoc :=
    [("wnid", JsonVal.str s.wnid),
     ("words", JsonVal.str s.words),
     ("gloss", JsonVal.str s.gloss)]
  let b := add_control b "self" (urlSynsetItem s.wnid) []
  add_control b "profile" SYNSET_PROFILE []

/-- `SynsetCollection.get` (synset.py lines 18–57), parameterized by the
configured `SYNSET_PAGE_SIZE` of the missing `constants.py`.  Parses
`start`, then builds the paginated listing: `prev` when
`start >= SYNSET_PAGE_SIZE`, `next` when more than a page of rows remains
past the offset, and one entry per row of the page. -/
def synsetCollectionGet (ps : Nat) (st : DBState) (startArg : Option String) :
    HttpResponse × DBState :=
  match parseStart startArg with
  | none =>
    (errorResponse 400 urlSynsetCollection "Invalid query parameter"
      (some "Query parameter start must be an integer"), st)
  | some start =>
    let b : MasonDoc := []
    let b := add_namespace b "imagenet_browser" LINK_RELATIONS_URL
    let b := add_control b "self" urlSynsetCollection []
    let b := add_control_add_synset b
    let after := sqlOffset (sortedSynsets st) start
    let b :=
      if (ps : Int) ≤ start then
        add_control b "prev"
          (urlSynsetCollection ++ "?start=" ++ toString (start - (ps : Int))) []
      else b
    let b :=
      if ps < after.length then
        add_control b "next"
          (urlSynsetCollection ++ "?start=" ++ toString (start + (ps : Int))) []
      else b
    let b := dictSet b "items"
      (JsonVal.arr ((after.take ps).map (fun s => JsonVal.obj (synsetEntryDoc s))))
    ({ status := 200, body := some b, mimetype := some MASON }, st)

/-- `SynsetCollection.post` (synset.py lines 59–94): media-type check,
schema validation, then insert-and-commit; a `wnid` uniqueness violation
surfaces as `IntegrityError` and yields 409 with the persisted state
untouched. -/
def synsetCollectionPost (st : DBState) (reqBody : Option JsonVal) :
    HttpResponse × DBState :=
  if hasJsonBody reqBody = false then
    (errorResponse 415 urlSynsetCollection "Unsupported media type"
      (some "Requests must be JSON"), st)
  else
    match reqBody with
    | none =>
      (errorResponse 415 urlSynsetCollection "Unsupported media type"
        (some "Requests must be JSON"), st)
    | some j =>
      if validSynsetDoc j = false then
        (errorResponse 400 urlSynsetCollection "Invalid JSON document"
          (some "validator message"), st)
      else
        let w := getStrField j "wnid"
        if st.synsets.any (fun s => s.wnid == w) then
          (errorResponse 409 urlSynsetCollection "Already exists"
            (some ("Synset with WordNet ID of " ++ w ++ " already exists")), st)
        else
          ({ status := 201, location := some (urlSynsetItem w) },
           { st with synsets :=
              st.synsets ++ [{ wnid := w
                               words := getStrField j "words"
                               gloss := getStrField j "gloss" }] })

/-- `SynsetItem.get` (synset.py lines 103–129). -/
def synsetItemGet (st : DBState) (wnid : String) :
    HttpResponse × DBState :=
  match findSynset st wnid with
  | none =>
    (errorResponse 404 (urlSynsetItem wnid) "Not found"
      (some ("No synset with WordNet ID of " ++ wnid ++ " found")), st)
  | some syn =>
    let b : MasonDoc :=
      [("wnid", JsonVal.str wnid),
       ("words", JsonVal.str syn.words),
       ("gloss", JsonVal.str syn.gloss)]
    let b := add_namespace b "imagenet_browser" LINK_RELATIONS_URL
    let b := add_control b "self" (urlSynsetItem wnid) []
    let b := add_control b "profile" SYNSET_PROFILE []
    let b := add_control b "collection" urlSynsetCollection []
    let b := add_control_edit_synset b wnid
    let b := add_control_delete_synset b wnid
    let b := add_control b "imagenet_browser:synsethyponymcollection"
      (urlSynsetHyponymCollection wnid) []
    let b := add_control b "imagenet_browser:synsetimagecollection"
      (urlSynsetImageCollection wnid) []
    ({ status := 200, body := some b, mimetype := some MASON }, st)

/-- `SynsetItem.put` (synset.py lines 131–169): existence check first,
then media-type check, then schema validation, then the in-place field
update; committing a rename onto an already-used `wnid` raises
`IntegrityError` and yields 409 with the persisted state untouched. -/
def synsetItemPut (st : DBState) (wnid : String) (reqBody : Option JsonVal) :
    HttpResponse × DBState :=
  match findSynset st wnid with
  | none =>
    (errorResponse 404 (urlSynsetItem wnid) "Not found"
      (some ("No synset with WordNet ID of " ++ wnid ++ " found")), st)
  | some _ =>
    if hasJsonBody reqBody = false then
      (errorResponse 415 (urlSynsetItem wnid) "Unsupported media type"
        (some "Requests must be JSON"), st)
    else
      match reqBody with
      | none =>
        (errorResponse 415 (urlSynsetItem wnid) "Unsupported media type"
          (some "Requests must be JSON"), st)
      | some j =>
        if validSynsetDoc j = false then
          (errorResponse 400 (urlSynsetItem wnid) "Invalid JSON document"
            (some "validator message"), st)
        else
          let newW := getStrField j "wnid"
          if newW != wnid && st.synsets.any (fun s => s.wnid == newW) then
            (errorResponse 409 (urlSynsetItem wnid) "Already exists"
              (some ("Synset with WordNet ID of " ++ newW ++ " already exists")),
             st)
          else
            ({ status := 204 },
             { st with synsets :=
                st.synsets.map (fun s =>
                  if s.wnid == wnid then
                    { wnid := newW
                      words := getStrField j "words"
                      gloss := getStrField j "gloss" }
                  else s) })

/-- `SynsetItem.delete` (synset.py lines 171–186): deletes the row; the
storage layer cascades to owned images and incident hyponym edges. -/
def synsetItemDelete (st : DBState) (wnid : String) :
    HttpResponse × DBState :=
  match findSynset st wnid with
  | none =>
    (errorResponse 404 (urlSynsetItem wnid) "Not found"
      (some ("No synset with WordNet ID of " ++ wnid ++ " found")), st)
  | some _ =>
    ({ status := 204 },
     { synsets := st.synsets.filter (fun s => s.wnid != wnid)
       edges := st.edges.filter (fun e => e.1 != wnid && e.2 != wnid) })

/-- The wnids of the owner's hyponym collection, in collection order;
the identity-mapped `list.index(row)` / `list.remove(row)` membership
checks of the source coincide with membership of the row's `wnid` in
this list. -/
def hypWnids (st : DBState) (wnid : String) : List String :=
  (hyponymRowsOf st wnid).map (fun s => s.wnid)

/-- A member of the Hyponym Collection `items` array (synset.py
lines 237–245). -/
def hyponymEntryDoc (wnid : String) (s : Synset) : MasonDoc :=
  let b : MasonDoc :=
    [("wnid", JsonVal.str s.wnid),
     ("words", JsonVal.str s.words),
     ("gloss", JsonVal.str s.gloss)]
  let b := add_control b "self" (urlSynsetHyponymItem wnid s.wnid) []
  add_control b "profile" SYNSET_PROFILE []

/-- `SynsetHyponymCollection.get` (synset.py lines 196–247): parses
`start`, resolves the owner, then paginates the owner's relation
collection by Python slicing (`synset.hyponyms[start:]`, then
`[:SYNSET_PAGE_SIZE]`); `prev`/`next` are computed from `start` and the
length of the remaining slice. -/
def synsetHyponymCollectionGet (ps : Nat) (st : DBState) (wnid : String)
    (startArg : Option String) : HttpResponse × DBState :=
  match parseStart startArg with
  | none =>
    (errorResponse 400 (urlSynsetHyponymCollection wnid)
      "Invalid query parameter"
      (some "Query parameter start must be an integer"), st)
  | some start =>
    match findSynset st wnid with
    | none =>
      (errorResponse 404 (urlSynsetHyponymCollection wnid) "Not found"
        (some ("No synset with WordNet ID of " ++ wnid ++ " found")), st)
    | some syn =>
      let b : MasonDoc :=
        [("wnid", JsonVal.str wnid),
         ("words", JsonVal.str syn.words),
         ("gloss", JsonVal.str syn.gloss)]
      let b := add_namespace b "imagenet_browser" LINK_RELATIONS_URL
      let b := add_control b "self"
        (urlSynsetHyponymCollection wnid ++ "?start=" ++ toString start) []
      let b := add_control_add_hyponym b wnid
      let b := add_control b "imagenet_browser:synsetitem"
        (urlSynsetItem wnid) []
      let hyps := pySliceFrom (hyponymRowsOf st wnid) start
      let b :=
        if (ps : Int) ≤ start then
          add_control b "prev"
            (urlSynsetHyponymCollection wnid ++ "?start=" ++
              toString (start - (ps : Int))) []
        else b
      let b :=
        if ps < hyps.length then
          add_control b "next"
            (urlSynsetHyponymCollection wnid ++ "?start=" ++
              toString (start + (ps : Int))) []
        else b
      let b := dictSet b "items"
        (JsonVal.arr ((hyps.take ps).map
          (fun s => JsonVal.obj (hyponymEntryDoc wnid s))))
      ({ status := 200, body := some b, mimetype := some MASON }, st)

/-- `SynsetHyponymCollection.post` (synset.py lines 249–298): owner
existence check first, then media-type check, then identifier-only
schema validation, then target existence check, then the duplicate-edge
check (`synset.hyponyms.index`, identity-mapped, hence by `wnid`);
on success the edge is appended and committed. -/
def synsetHyponymCollectionPost (st : DBState) (wnid : String)
    (reqBody : Option JsonVal) : HttpResponse × DBState :=
  match findSynset st wnid with
  | none =>
    (errorResponse 404 (urlSynsetHyponymCollection wnid) "Not found"
      (some ("No synset with WordNet ID of " ++ wnid ++ " found")), st)
  | some _ =>
    if hasJsonBody reqBody = false then
      (errorResponse 415 (urlSynsetHyponymCollection wnid)
        "Unsupported media type" (some "Requests must be JSON"), st)
    else
      match reqBody with
      | none =>
        (errorResponse 415 (urlSynsetHyponymCollection wnid)
          "Unsupported media type" (some "Requests must be JSON"), st)
      | some j =>
        if validWnidOnlyDoc j = false then
          (errorResponse 400 (urlSynsetHyponymCollection wnid)
            "Invalid JSON document" (some "validator message"), st)
        else
          let h := getStrField j "wnid"
          match findSynset st h with
          | none =>
            (errorResponse 404 (urlSynsetHyponymCollection wnid) "Not found"
              (some ("No synset with WordNet ID of " ++ h ++ " found")), st)
          | some _ =>
            if (hypWnids st wnid).contains h then
              (errorResponse 409 (urlSynsetHyponymCollection wnid)
                "Already exists"
                (some ("Synset hyponym with WordNet ID of " ++ h ++
                  " already exists")), st)
            else
              ({ status := 201,
                 location := some (urlSynsetHyponymItem wnid h) },
               { st with edges := st.edges ++ [(wnid, h)] })

/-- `SynsetHyponymItem.get` (synset.py lines 307–341): resolves the
owner, fetches the target by `hyponym_wnid` (a missing target makes the
`index` call raise `ValueError`, hence 404), then checks edge membership
(identity-mapped `index`, hence by `wnid`); on success returns the
hyponym's representation. -/
def synsetHyponymItemGet (st : DBState) (wnid hyponym_wnid : String) :
    HttpResponse × DBState :=
  match findSynset st wnid with
  | none =>
    (errorResponse 404 (urlSynsetHyponymItem wnid hyponym_wnid) "Not found"
      (some ("No synset with WordNet ID of " ++ wnid ++ " found")), st)
  | some _ =>
    match findSynset st hyponym_wnid with
    | none =>
      (errorResponse 404 (urlSynsetHyponymItem wnid hyponym_wnid) "Not found"
        (some ("No synset hyponym with WordNet ID of " ++ hyponym_wnid ++
          " found")), st)
    | some hyp =>
      if (hypWnids st wnid).contains hyponym_wnid then
        let b : MasonDoc :=
          [("wnid", JsonVal.str hyponym_wnid),
           ("words", JsonVal.str hyp.words),
           ("gloss", JsonVal.str hyp.gloss)]
        let b := add_namespace b "imagenet_browser" LINK_RELATIONS_URL
        let b := add_control b "self"
          (urlSynsetHyponymItem wnid hyponym_wnid) []
        let b := add_control b "profile" SYNSET_PROFILE []
        let b := add_control b "collection"
          (urlSynsetHyponymCollection wnid) []
        let b := add_control_delete_hyponym b wnid hyponym_wnid
        ({ status := 200, body := some b, mimetype := some MASON }, st)
      else
        (errorResponse 404 (urlSynsetHyponymItem wnid hyponym_wnid)
          "Not found"
          (some ("No synset hyponym with WordNet ID of " ++ hyponym_wnid ++
            " found")), st)

/-- `SynsetHyponymItem.delete` (synset.py lines 343–366): resolves the
owner, then `synset.hyponyms.remove(fetched target)` — removing a
missing target (or a fetched `None`) raises `ValueError`, hence 404;
otherwise the first matching edge is removed and committed. -/
def synsetHyponymItemDelete (st : DBState) (wnid hyponym_wnid : String) :
    HttpResponse × DBState :=
  match findSynset st wnid with
  | none =>
    (errorResponse 404 (urlSynsetHyponymItem wnid hyponym_wnid) "Not found"
      (some ("No synset with WordNet ID of " ++ wnid ++ " found")), st)
  | some _ =>
    match findSynset st hyponym_wnid with
    | none =>
      (errorResponse 404 (urlSynsetHyponymItem wnid hyponym_wnid) "Not found"
        (some ("No synset hyponym with WordNet ID of " ++ hyponym_wnid ++
          " found")), st)
    | some _ =>
      if (hypWnids st wnid).contains hyponym_wnid then
        ({ status := 204 },
         { st with edges :=
            st.edges.eraseP (fun e => e.1 == wnid && e.2 == hyponym_wnid) })
      else
        (errorResponse 404 (urlSynsetHyponymItem wnid hyponym_wnid)
          "Not found"
          (some ("No synset hyponym with WordNet ID of " ++ hyponym_wnid ++
            " found")), st)

theorem dictGet_cons {α : Type} (p : String × α) (d : List (String × α))
    (k : String) :
    dictGet (p :: d) k = if p.1 == k then some p.2 else dictGet d k := by
  by_cases h : p.1 == k
  · simp [dictGet, List.find?_cons_of_pos _ h, h]
  · simp only [Bool.not_eq_true] at h
    simp [dictGet, List.find?_cons_of_neg, h]

theorem find?_map_set {α : Type} (d : List (String × α)) (k k' : String)
    (v : α) :
    (d.map (fun p => if p.1 == k then (k, v) else p)).find?
        (fun p => p.1 == k')
      = if k' = k then (d.find? (fun p => p.1 == k)).map (fun _ => (k, v))
        else d.find? (fun p => p.1 == k') := by
  induction d with
  | nil => by_cases h : k' = k <;> simp [h]
  | cons p t ih =>
    simp only [List.map_cons, List.find?_cons]
    by_cases hp : p.1 = k
    · have hpb : (p.1 == k) = true := by simp [hp]
      rw [if_pos hpb]
      by_cases hk : k' = k
      · have hkb : (k == k') = true := by simp [hk]
        simp only [hkb, hpb, if_pos hk, cond_true]
        rfl
      · have hkb : (k == k') = false := by
          simp only [beq_eq_false_iff_ne, ne_eq]
          exact fun h => hk h.symm
        have hpb' : (p.1 == k') = false := by
          simp only [beq_eq_false_iff_ne, ne_eq, hp]
          exact fun h => hk h.symm
        simp only [hkb, hpb', cond_false, if_neg hk, ih]
    · have hpb : (p.1 == k) = false := by simp [hp]
      rw [if_neg (by simp [hp] : ¬ (p.1 == k) = true)]
      by_cases hk : k' = k
      · have hpb' : (p.1 == k') = false := by simp [hp, hk]
        simp only [hpb, hpb', cond_false, if_pos hk, ih]
      · by_cases hpk : p.1 = k'
        · have hpkb : (p.1 == k') = true := by simp [hpk]
          simp only [hpkb, cond_true, if_neg hk]
        · have hpkb : (p.1 == k') = false := by simp [hpk]
          simp only [hpkb, cond_false, if_neg hk, ih]

theorem dictGet_dictSet {α : Type} (d : List (String × α)) (k k' : String)
    (v : α) :
    dictGet (dictSet d k v) k' = if k' = k then some v else dictGet d k' := by
  unfold dictSet
  by_cases hany : d.any (fun p => p.1 == k) = true
  · rw [if_pos hany]
    unfold dictGet
    rw [find?_map_set]
    by_cases hk : k' = k
    · rw [if_pos hk, if_pos hk]
      obtain ⟨p, hmem, hp⟩ := List.any_eq_true.mp hany
      have : (d.find? (fun p => p.1 == k)).isSome := by
        rw [List.find?_isSome]
        exact ⟨p, hmem, hp⟩
      obtain ⟨q, hq⟩ := Option.isSome_iff_exists.mp this
      simp [hq]
    · rw [if_neg hk, if_neg hk]
  · rw [if_neg hany]
    unfold dictGet
    rw [List.find?_append]
    have hnone : d.find? (fun p => p.1 == k) = none := by
      rw [List.find?_eq_none]
      intro x hx
      simp only [Bool.not_eq_true]
      by_contra hc
      simp only [Bool.not_eq_false] at hc
      exact hany (List.any_eq_true.mpr ⟨x, hx, hc⟩)
    by_cases hk : k' = k
    · subst hk
      simp [hnone, List.find?_cons, beq_iff_eq]
    · have hkb : ¬ (k == k') = true := by
        simp only [beq_iff_eq]
        exact fun h => hk h.symm
      simp only [if_neg hk]
      simp only [List.find?_cons, hkb, List.find?_nil]
      cases d.find? (fun p => p.1 == k') <;> simp

theorem dictGet_dictSet_self {α : Type} (d : List (String × α)) (k : String)
    (v : α) : dictGet (dictSet d k v) k = some v := by
  rw [dictGet_dictSet, if_pos rfl]

theorem dictGet_dictSet_ne {α : Type} (d : List (String × α))
    (k k' : String) (v : α) (h : k' ≠ k) :
    dictGet (dictSet d k v) k' = dictGet d k' := by
  rw [dictGet_dictSet, if_neg h]

theorem controlsOf_dictSet_ne (d : MasonDoc) (k : String) (v : JsonVal)
    (h : k ≠ "@controls") :
    controlsOf (dictSet d k v) = controlsOf d := by
  unfold controlsOf
  rw [dictGet_dictSet_ne _ _ _ _ (fun hh => h hh.symm)]

theorem controlsOf_add_control (d : MasonDoc) (n h : String)
    (o : List (String × JsonVal)) :
    controlsOf (add_control d n h o)
      = dictSet (controlsOf d) n
          (JsonVal.obj (dictSet o "href" (JsonVal.str h))) := by
  unfold add_control controlsOf
  rw [dictGet_dictSet_self]

theorem controlsOf_add_namespace (d : MasonDoc) (ns uri : String) :
    controlsOf (add_namespace d ns uri) = controlsOf d := by
  unfold add_namespace
  exact controlsOf_dictSet_ne _ _ _ (by decide)

theorem hasControl_add_control (d : MasonDoc) (n h : String)
    (o : List (String × JsonVal)) (m : String) :
    hasControl (add_control d n h o) m = ((m == n) || hasControl d m) := by
  unfold hasControl
  rw [controlsOf_add_control, dictGet_dictSet]
  by_cases hm : m = n
  · simp [hm]
  · simp [hm, (by simp [hm] : (m == n) = false)]

theorem controlHref_add_control_self (d : MasonDoc) (n h : String)
    (o : List (String × JsonVal)) :
    controlHref (add_control d n h o) n = some (JsonVal.str h) := by
  unfold controlHref
  rw [controlsOf_add_control, dictGet_dictSet_self]
  exact dictGet_dictSet_self o "href" (JsonVal.str h)

theorem controlHref_add_control_ne (d : MasonDoc) (n h : String)
    (o : List (String × JsonVal)) (m : String) (hm : m ≠ n) :
    controlHref (add_control d n h o) m = controlHref d m := by
  unfold controlHref
  rw [controlsOf_add_control, dictGet_dictSet_ne _ _ _ _ hm]

theorem hasControl_dictSet_ne (d : MasonDoc) (k : String) (v : JsonVal)
    (m : String) (h : k ≠ "@controls") :
    hasControl (dictSet d k v) m = hasControl d m := by
  unfold hasControl
  rw [controlsOf_dictSet_ne _ _ _ h]

theorem hasControl_add_namespace (d : MasonDoc) (ns uri : String)
    (m : String) :
    hasControl (add_namespace d ns uri) m = hasControl d m := by
  unfold hasControl
  rw [controlsOf_add_namespace]

theorem ctrlsWellFormed_add_control (d : MasonDoc) (n h : String)
    (o : List (String × JsonVal)) :
    ctrlsWellFormed (add_control d n h o) := by
  intro v hv
  unfold add_control at hv
  rw [dictGet_dictSet_self] at hv
  exact ⟨_, (Option.some.inj hv).symm⟩

/-- C9: `add_control` registers the control under `@controls` with
last-write-wins semantics — after two calls with the same name the
document holds exactly the second registration (the second option list
with its `href` key set to the second href) — and after any call the
entry's `href` equals the href argument, whatever the options; on a
structurally valid document (`@controls` an object when present, the
invariant every builder-produced document satisfies, under which the
source's item assignments cannot raise) the result is again structurally
valid. -/
theorem add_control_last_write_wins (d : MasonDoc)
    (name href1 href2 : String) (opts1 opts2 : List (String × JsonVal))
    (hwf : ctrlsWellFormed d) :
    dictGet (controlsOf (add_control (add_control d name href1 opts1)
        name href2 opts2)) name
      = some (JsonVal.obj (dictSet opts2 "href" (JsonVal.str href2)))
    ∧ controlHref (add_control (add_control d name href1 opts1)
        name href2 opts2) name = some (JsonVal.str href2)
    ∧ controlHref (add_control d name href1 opts1) name
        = some (JsonVal.str href1)
    ∧ ctrlsWellFormed (add_control (add_control d name href1 opts1)
        name href2 opts2) := by
  refine ⟨?_, controlHref_add_control_self _ _ _ _,
    controlHref_add_control_self _ _ _ _, ctrlsWellFormed_add_control _ _ _ _⟩
  rw [controlsOf_add_control, dictGet_dictSet_self]

/-- Witness for C9 at a concrete document, name, hrefs and options. -/
theorem add_control_last_write_wins_witness :
    dictGet (controlsOf (add_control (add_control ([] : MasonDoc) "up" "/a" [])
        "up" "/b" [("method", JsonVal.str "GET")])) "up"
      = some (JsonVal.obj (dictSet [("method", JsonVal.str "GET")] "href"
          (JsonVal.str "/b")))
    ∧ controlHref (add_control (add_control ([] : MasonDoc) "up" "/a" [])
        "up" "/b" [("method", JsonVal.str "GET")]) "up"
        = some (JsonVal.str "/b")
    ∧ controlHref (add_control ([] : MasonDoc) "up" "/a" []) "up"
        = some (JsonVal.str "/a")
    ∧ ctrlsWellFormed (add_control (add_control ([] : MasonDoc) "up" "/a" [])
        "up" "/b" [("method", JsonVal.str "GET")]) :=
  add_control_last_write_wins [] "up" "/a" "/b" [] [("method", JsonVal.str "GET")]
    (by intro v hv; simp [dictGet] at hv)

/-- C8: every error response built by `create_error_response` — for
every status code, request path, title and optional message — carries the
request path under `resource_url`, an `@error` block whose `@message` is
the title and whose `@messages` details array has length exactly one,
and a `profile` control whose href is the error-documentation profile;
the response status is the given code. -/
theorem error_response_uniform (code : Nat) (path title : String)
    (message : Option String) :
    (errorResponse code path title message).status = code
    ∧ ∃ doc details,
        (errorResponse code path title message).body = some doc
        ∧ dictGet doc "resource_url" = some (JsonVal.str path)
        ∧ dictGet doc "@error"
            = some (JsonVal.obj
                [("@message", JsonVal.str title),
                 ("@messages", JsonVal.arr details)])
        ∧ details.length = 1
        ∧ controlHref doc "profile" = some (JsonVal.str ERROR_PROFILE) := by
  refine ⟨rfl, create_error_response_body path title message,
    [match message with
     | some s => JsonVal.str s
     | none => JsonVal.null], rfl, ?_, ?_, rfl,
    controlHref_add_control_self _ _ _ _⟩
  · unfold create_error_response_body add_error
    rw [show (add_control
        (dictSet [("resource_url", JsonVal.str path)] "@error" _)
        "profile" ERROR_PROFILE []) = _ from rfl]
    unfold add_control
    rw [dictGet_dictSet_ne _ _ _ _ (by decide),
      dictGet_dictSet_ne _ _ _ _ (by decide)]
    rfl
  · unfold create_error_response_body add_error add_control
    rw [dictGet_dictSet_ne _ _ _ _ (by decide), dictGet_dictSet_self]

/-- C10: every GET handler — Synset Collection, Synset Item, Hyponym
Collection, Hyponym Item — leaves the persistent storage state
unchanged, on every state and request, whether it answers with a
success or an error document. -/
theorem get_handlers_preserve_state (ps : Nat) (st : DBState)
    (startArg : Option String) (wnid hyponym_wnid : String) :
    (synsetCollectionGet ps st startArg).2 = st
    ∧ (synsetItemGet st wnid).2 = st
    ∧ (synsetHyponymCollectionGet ps st wnid startArg).2 = st
    ∧ (synsetHyponymItemGet st wnid hyponym_wnid).2 = st := by
  refine ⟨?_, ?_, ?_, ?_⟩
  · unfold synsetCollectionGet
    cases parseStart startArg <;> rfl
  · unfold synsetItemGet
    cases findSynset st wnid <;> rfl
  · unfold synsetHyponymCollectionGet
    cases parseStart startArg
    · rfl
    · cases findSynset st wnid <;> rfl
  · unfold synsetHyponymItemGet
    split
    · rfl
    · split
      · rfl
      · split <;> rfl

theorem findSynset_wnid (st : DBState) (h : String) (r : Synset)
    (hr : findSynset st h = some r) : r.wnid = h := by
  unfold findSynset at hr
  have := List.find?_some hr
  simpa [beq_iff_eq] using this

theorem findSynset_setEdges (st : DBState) (es : List (String × String))
    (w : String) :
    findSynset { st with edges := es } w = findSynset st w := rfl

theorem contains_iff_mem (l : List String) (a : String) :
    l.contains a = true ↔ a ∈ l := by
  simp [List.contains]

theorem mem_hypWnids_iff (st : DBState) (w h : String) :
    h ∈ hypWnids st w ↔ ((w, h) ∈ st.edges ∧ (findSynset st h).isSome) := by
  unfold hypWnids hyponymRowsOf
  simp only [List.mem_map, List.mem_filterMap, List.mem_filter]
  constructor
  · rintro ⟨r, ⟨e, ⟨he, hew⟩, hfind⟩, hrw⟩
    have hr2 : r.wnid = e.2 := findSynset_wnid st e.2 r hfind
    have hew' : e.1 = w := by simpa [beq_iff_eq] using hew
    have he2 : e.2 = h := by rw [← hr2]; exact hrw
    refine ⟨?_, ?_⟩
    · have heq : e = (w, h) := by
        cases e
        simp only [Prod.mk.injEq]
        exact ⟨hew', he2⟩
      rwa [heq] at he
    · rw [← he2, hfind]
      rfl
  · rintro ⟨hmem, hsome⟩
    obtain ⟨r, hr⟩ := Option.isSome_iff_exists.mp hsome
    have hrw : r.wnid = h := findSynset_wnid st h r hr
    exact ⟨r, ⟨(w, h), ⟨hmem, by simp⟩, hr⟩, hrw⟩

theorem jsonTruthy_of_validSynset (j : JsonVal)
    (h : validSynsetDoc j = true) : hasJsonBody (some j) = true := by
  cases j with
  | obj kvs =>
    cases kvs with
    | nil => simp [validSynsetDoc, dictGet] at h
    | cons p t => simp [hasJsonBody, jsonTruthy]
  | null => simp [validSynsetDoc] at h
  | bool b => simp [validSynsetDoc] at h
  | num n => simp [validSynsetDoc] at h
  | str s => simp [validSynsetDoc] at h
  | arr l => simp [validSynsetDoc] at h

theorem jsonTruthy_of_validWnidOnly (j : JsonVal)
    (h : validWnidOnlyDoc j = true) : hasJsonBody (some j) = true := by
  cases j with
  | obj kvs =>
    cases kvs with
    | nil => simp [validWnidOnlyDoc, dictGet] at h
    | cons p t => simp [hasJsonBody, jsonTruthy]
  | null => simp [validWnidOnlyDoc] at h
  | bool b => simp [validWnidOnlyDoc] at h
  | num n => simp [validWnidOnlyDoc] at h
  | str s => simp [validWnidOnlyDoc] at h
  | arr l => simp [validWnidOnlyDoc] at h

/-- C2: for an existing synset `A` and any identifier `h`, Hyponym Item
GET answers 200 exactly when some synset whose `wnid` equals `h` is a
member of the hyponym collection of `A` — membership decided by the
value of the `wnid` business key, which is what the source's
identity-based `index` check amounts to under the session identity
map — and answers 404 (Not found) otherwise. -/
theorem hyponym_item_get_membership (st : DBState) (wnid h : String)
    (a : Synset) (hA : findSynset st wnid = some a) :
    ((synsetHyponymItemGet st wnid h).1.status = 200
       ↔ ∃ s ∈ hyponymRowsOf st wnid, s.wnid = h)
    ∧ ((¬ ∃ s ∈ hyponymRowsOf st wnid, s.wnid = h) →
        (synsetHyponymItemGet st wnid h).1.status = 404) := by
  have hmm : (∃ s ∈ hyponymRowsOf st wnid, s.wnid = h)
      ↔ h ∈ hypWnids st wnid := by
    unfold hypWnids
    rw [List.mem_map]
  unfold synsetHyponymItemGet
  rw [hA]
  cases hfh : findSynset st h with
  | none =>
    have hnot : h ∉ hypWnids st wnid := by
      intro hmem
      have := ((mem_hypWnids_iff st wnid h).mp hmem).2
      rw [hfh] at this
      simp at this
    refine ⟨⟨fun h200 => ?_, fun hmem => ?_⟩, fun _ => rfl⟩
    · simp [errorResponse] at h200
    · exact absurd (hmm.mp hmem) hnot
  | some hyp =>
    dsimp only
    by_cases hc : (hypWnids st wnid).contains h = true
    · have hmem : h ∈ hypWnids st wnid := (contains_iff_mem _ _).mp hc
      rw [if_pos hc]
      refine ⟨⟨fun _ => hmm.mpr hmem, fun _ => rfl⟩,
        fun hn => absurd (hmm.mpr hmem) hn⟩
    · have hnot : h ∉ hypWnids st wnid := fun hm =>
        hc ((contains_iff_mem _ _).mpr hm)
      rw [if_neg hc]
      refine ⟨⟨fun h200 => ?_, fun hmem => absurd (hmm.mp hmem) hnot⟩,
        fun _ => rfl⟩
      simp [errorResponse] at h200

/-- Witness for C2 at a concrete two-synset state with one edge. -/
theorem hyponym_item_get_membership_witness :
    ((synsetHyponymItemGet
        { synsets := [⟨"n01", "a", "ga"⟩, ⟨"n02", "b", "gb"⟩],
          edges := [("n01", "n02")] } "n01" "n02").1.status = 200
       ↔ ∃ s ∈ hyponymRowsOf
            { synsets := [⟨"n01", "a", "ga"⟩, ⟨"n02", "b", "gb"⟩],
              edges := [("n01", "n02")] } "n01", s.wnid = "n02")
    ∧ ((¬ ∃ s ∈ hyponymRowsOf
            { synsets := [⟨"n01", "a", "ga"⟩, ⟨"n02", "b", "gb"⟩],
              edges := [("n01", "n02")] } "n01", s.wnid = "n02") →
        (synsetHyponymItemGet
          { synsets := [⟨"n01", "a", "ga"⟩, ⟨"n02", "b", "gb"⟩],
            edges := [("n01", "n02")] } "n01" "n02").1.status = 404) :=
  hyponym_item_get_membership _ "n01" "n02" ⟨"n01", "a", "ga"⟩ (by decide)

/-- C4 counterexample: a bodyless `PUT` on a non-existent synset and a
bodyless hyponym `POST` under a non-existent synset both answer 404 —
not 415 as the claim requires — because in these handlers the existence
check runs before the media-type check. -/
theorem media_check_order_counterexample :
    (synsetItemPut { synsets := [], edges := [] } "n01" none).1.status = 404
    ∧ ¬ (synsetItemPut { synsets := [], edges := [] } "n01"
          none).1.status = 415
    ∧ (synsetHyponymCollectionPost { synsets := [], edges := [] } "n01"
        none).1.status = 404
    ∧ ¬ (synsetHyponymCollectionPost { synsets := [], edges := [] } "n01"
          none).1.status = 415 := by
  refine ⟨rfl, by decide, rfl, by decide⟩

/-- C4 (amended): a write request lacking a JSON body fails with 415,
but the media-type check precedes only schema validation, not every
existence check: Synset Collection POST has no existence check and
answers 415 at once, while Synset Item PUT and Hyponym Collection POST
look up the addressed synset first, so a bodyless write whose addressed
synset exists answers 415 and one whose addressed synset does not exist
answers 404. -/
theorem media_check_order (st : DBState) (wnid : String)
    (reqBody : Option JsonVal) (hbody : hasJsonBody reqBody = false) :
    (synsetCollectionPost st reqBody).1.status = 415
    ∧ (∀ a, findSynset st wnid = some a →
        (synsetItemPut st wnid reqBody).1.status = 415
        ∧ (synsetHyponymCollectionPost st wnid reqBody).1.status = 415)
    ∧ (findSynset st wnid = none →
        (synsetItemPut st wnid reqBody).1.status = 404
        ∧ (synsetHyponymCollectionPost st wnid reqBody).1.status = 404) := by
  refine ⟨?_, fun a ha => ⟨?_, ?_⟩, fun hn => ⟨?_, ?_⟩⟩
  · unfold synsetCollectionPost
    rw [if_pos hbody]
    rfl
  · unfold synsetItemPut
    rw [ha]
    dsimp only
    rw [if_pos hbody]
    rfl
  · unfold synsetHyponymCollectionPost
    rw [ha]
    dsimp only
    rw [if_pos hbody]
    rfl
  · unfold synsetItemPut
    rw [hn]
    rfl
  · unfold synsetHyponymCollectionPost
    rw [hn]
    rfl

/-- Witness for C4 (amended) at a one-synset state and a bodyless
request. -/
theorem media_check_order_witness :
    (synsetCollectionPost { synsets := [⟨"n01", "w", "g"⟩], edges := [] }
        none).1.status = 415
    ∧ (∀ a, findSynset { synsets := [⟨"n01", "w", "g"⟩], edges := [] }
          "n01" = some a →
        (synsetItemPut { synsets := [⟨"n01", "w", "g"⟩], edges := [] }
            "n01" none).1.status = 415
        ∧ (synsetHyponymCollectionPost
            { synsets := [⟨"n01", "w", "g"⟩], edges := [] } "n01"
            none).1.status = 415)
    ∧ (findSynset { synsets := [⟨"n01", "w", "g"⟩], edges := [] }
          "n01" = none →
        (synsetItemPut { synsets := [⟨"n01", "w", "g"⟩], edges := [] }
            "n01" none).1.status = 404
        ∧ (synsetHyponymCollectionPost
            { synsets := [⟨"n01", "w", "g"⟩], edges := [] } "n01"
            none).1.status = 404) :=
  media_check_order { synsets := [⟨"n01", "w", "g"⟩], edges := [] } "n01"
    none (by decide)

/-- C5: posting a schema-valid synset payload whose `wnid` is already
taken answers 409 (Conflict) and leaves the persisted state exactly as
it was — in particular the table still holds exactly one row with that
`wnid`, with no duplicate row or other partial state. -/
theorem post_duplicate_conflict (st : DBState) (j : JsonVal) (w : String)
    (hvalid : validSynsetDoc j = true) (hw : getStrField j "wnid" = w)
    (hcount : st.synsets.countP (fun s => s.wnid == w) = 1) :
    (synsetCollectionPost st (some j)).1.status = 409
    ∧ (synsetCollectionPost st (some j)).2 = st
    ∧ (synsetCollectionPost st (some j)).2.synsets.countP
        (fun s => s.wnid == w) = 1 := by
  have hbody := jsonTruthy_of_validSynset j hvalid
  have hany : st.synsets.any (fun s => s.wnid == w) = true := by
    rw [List.any_eq_true]
    exact List.countP_pos_iff.mp (by omega)
  unfold synsetCollectionPost
  rw [if_neg (by rw [hbody]; exact fun h => Bool.true_eq_false.mp h)]
  dsimp only
  rw [if_neg (by rw [hvalid]; exact fun h => Bool.true_eq_false.mp h), hw,
    if_pos hany]
  exact ⟨rfl, rfl, hcount⟩

/-- Witness for C5 at a one-synset state and a duplicate payload. -/
theorem post_duplicate_conflict_witness :
    (synsetCollectionPost { synsets := [⟨"n01", "w", "g"⟩], edges := [] }
        (some (JsonVal.obj [("wnid", JsonVal.str "n01"),
          ("words", JsonVal.str "x"),
          ("gloss", JsonVal.str "y")]))).1.status = 409
    ∧ (synsetCollectionPost { synsets := [⟨"n01", "w", "g"⟩], edges := [] }
        (some (JsonVal.obj [("wnid", JsonVal.str "n01"),
          ("words", JsonVal.str "x"),
          ("gloss", JsonVal.str "y")]))).2
        = { synsets := [⟨"n01", "w", "g"⟩], edges := [] }
    ∧ (synsetCollectionPost { synsets := [⟨"n01", "w", "g"⟩], edges := [] }
        (some (JsonVal.obj [("wnid", JsonVal.str "n01"),
          ("words", JsonVal.str "x"),
          ("gloss", JsonVal.str "y")]))).2.synsets.countP
        (fun s => s.wnid == "n01") = 1 :=
  post_duplicate_conflict { synsets := [⟨"n01", "w", "g"⟩], edges := [] }
    (JsonVal.obj [("wnid", JsonVal.str "n01"), ("words", JsonVal.str "x"),
      ("gloss", JsonVal.str "y")]) "n01" (by decide) (by decide) (by decide)

/-- C3: for existing synsets `A` and `B` with no edge `(A, B)`, posting
`{"wnid": B}` to the hyponym collection of `A` twice answers 201 then
409 (Conflict), and then deleting the hyponym item `(A, B)` twice
answers 204 then 404 (Not found). -/
theorem hyponym_double_post_delete (st : DBState) (A B : String)
    (a b : Synset) (hA : findSynset st A = some a)
    (hB : findSynset st B = some b) (hno : (A, B) ∉ st.edges) :
    (synsetHyponymCollectionPost st A
        (some (JsonVal.obj [("wnid", JsonVal.str B)]))).1.status = 201
    ∧ (synsetHyponymCollectionPost
        (synsetHyponymCollectionPost st A
          (some (JsonVal.obj [("wnid", JsonVal.str B)]))).2 A
        (some (JsonVal.obj [("wnid", JsonVal.str B)]))).1.status = 409
    ∧ (synsetHyponymItemDelete
        (synsetHyponymCollectionPost
          (synsetHyponymCollectionPost st A
            (some (JsonVal.obj [("wnid", JsonVal.str B)]))).2 A
          (some (JsonVal.obj [("wnid", JsonVal.str B)]))).2 A B).1.status = 204
    ∧ (synsetHyponymItemDelete
        (synsetHyponymItemDelete
          (synsetHyponymCollectionPost
            (synsetHyponymCollectionPost st A
              (some (JsonVal.obj [("wnid", JsonVal.str B)]))).2 A
            (some (JsonVal.obj [("wnid", JsonVal.str B)]))).2 A B).2
        A B).1.status = 404 := by
  have hmedia : ¬ (hasJsonBody
      (some (JsonVal.obj [("wnid", JsonVal.str B)])) = false) := by
    simp [hasJsonBody, jsonTruthy]
  have hvalidB : ¬ (validWnidOnlyDoc
      (JsonVal.obj [("wnid", JsonVal.str B)]) = false) := by
    simp [validWnidOnlyDoc, dictGet, isJsonStr, List.find?]
  have hget : getStrField (JsonVal.obj [("wnid", JsonVal.str B)]) "wnid"
      = B := rfl
  have hcont : ¬ ((hypWnids st A).contains B = true) := fun hc =>
    hno (((mem_hypWnids_iff st A B).mp ((contains_iff_mem _ _).mp hc)).1)
  have e1 : synsetHyponymCollectionPost st A
      (some (JsonVal.obj [("wnid", JsonVal.str B)]))
      = ({ status := 201,
           location := some (urlSynsetHyponymItem A B) },
         { st with edges := st.edges ++ [(A, B)] }) := by
    unfold synsetHyponymCollectionPost
    rw [hA]
    dsimp only
    rw [if_neg hmedia]
    rw [if_neg hvalidB]
    rw [hget, hB, if_neg hcont]
  rw [e1]
  have hmem1 : B ∈ hypWnids { st with edges := st.edges ++ [(A, B)] } A := by
    rw [mem_hypWnids_iff]
    refine ⟨List.mem_append_right _ (List.mem_singleton.mpr rfl), ?_⟩
    rw [findSynset_setEdges, hB]
    rfl
  have hcont1 : (hypWnids { st with edges := st.edges ++ [(A, B)] }
      A).contains B = true := (contains_iff_mem _ _).mpr hmem1
  have e2 : synsetHyponymCollectionPost
      { st with edges := st.edges ++ [(A, B)] } A
      (some (JsonVal.obj [("wnid", JsonVal.str B)]))
      = (errorResponse 409 (urlSynsetHyponymCollection A) "Already exists"
          (some ("Synset hyponym with WordNet ID of " ++ B ++
            " already exists")),
         { st with edges := st.edges ++ [(A, B)] }) := by
    unfold synsetHyponymCollectionPost
    rw [findSynset_setEdges, hA]
    dsimp only
    rw [if_neg hmedia]
    rw [if_neg hvalidB]
    rw [hget, findSynset_setEdges, hB]
    dsimp only
    rw [if_pos hcont1]
  rw [e2]
  have hleft : ∀ e ∈ st.edges,
      ¬ ((fun e => e.1 == A && e.2 == B) e = true) := by
    intro e he
    simp only [Bool.and_eq_true, beq_iff_eq, not_and]
    intro h1 h2
    apply hno
    have hepair : e = (A, B) := by
      cases e
      simp_all
    rwa [hepair] at he
  have herase : (st.edges ++ [(A, B)]).eraseP
      (fun e => e.1 == A && e.2 == B) = st.edges := by
    rw [List.eraseP_append_right _ hleft,
      List.eraseP_cons_of_pos (by simp), List.append_nil]
  have e3 : synsetHyponymItemDelete
      { st with edges := st.edges ++ [(A, B)] } A B
      = ({ status := 204 }, st) := by
    unfold synsetHyponymItemDelete
    rw [findSynset_setEdges, hA]
    dsimp only
    rw [findSynset_setEdges, hB]
    dsimp only
    rw [if_pos hcont1, herase]
  rw [e3]
  have e4 : (synsetHyponymItemDelete st A B).1.status = 404 := by
    unfold synsetHyponymItemDelete
    rw [hA]
    dsimp only
    rw [hB]
    dsimp only
    rw [if_neg hcont]
    rfl
  exact ⟨rfl, rfl, rfl, e4⟩

/-- Witness for C3 at a concrete two-synset state with no edges. -/
theorem hyponym_double_post_delete_witness :
    (synsetHyponymCollectionPost
        { synsets := [⟨"n01", "a", "ga"⟩, ⟨"n02", "b", "gb"⟩], edges := [] }
        "n01"
        (some (JsonVal.obj [("wnid", JsonVal.str "n02")]))).1.status = 201
    ∧ (synsetHyponymCollectionPost
        (synsetHyponymCollectionPost
          { synsets := [⟨"n01", "a", "ga"⟩, ⟨"n02", "b", "gb"⟩],
            edges := [] } "n01"
          (some (JsonVal.obj [("wnid", JsonVal.str "n02")]))).2 "n01"
        (some (JsonVal.obj [("wnid", JsonVal.str "n02")]))).1.status = 409
    ∧ (synsetHyponymItemDelete
        (synsetHyponymCollectionPost
          (synsetHyponymCollectionPost
            { synsets := [⟨"n01", "a", "ga"⟩, ⟨"n02", "b", "gb"⟩],
              edges := [] } "n01"
            (some (JsonVal.obj [("wnid", JsonVal.str "n02")]))).2 "n01"
          (some (JsonVal.obj [("wnid", JsonVal.str "n02")]))).2
        "n01" "n02").1.status = 204
    ∧ (synsetHyponymItemDelete
        (synsetHyponymItemDelete
          (synsetHyponymCollectionPost
            (synsetHyponymCollectionPost
              { synsets := [⟨"n01", "a", "ga"⟩, ⟨"n02", "b", "gb"⟩],
                edges := [] } "n01"
              (some (JsonVal.obj [("wnid", JsonVal.str "n02")]))).2 "n01"
            (some (JsonVal.obj [("wnid", JsonVal.str "n02")]))).2
          "n01" "n02").2
        "n01" "n02").1.status = 404 :=
  hyponym_double_post_delete
    { synsets := [⟨"n01", "a", "ga"⟩, ⟨"n02", "b", "gb"⟩], edges := [] }
    "n01" "n02" ⟨"n01", "a", "ga"⟩ ⟨"n02", "b", "gb"⟩
    (by decide) (by decide) (by decide)

theorem dictGet_add_control_ne (d : MasonDoc) (n h : String)
    (o : List (String × JsonVal)) (k : String) (hk : k ≠ "@controls") :
    dictGet (add_control d n h o) k = dictGet d k := by
  unfold add_control
  exact dictGet_dictSet_ne _ _ _ _ hk

theorem dictGet_add_namespace_ne (d : MasonDoc) (ns uri k : String)
    (hk : k ≠ "@namespaces") :
    dictGet (add_namespace d ns uri) k = dictGet d k := by
  unfold add_namespace
  exact dictGet_dictSet_ne _ _ _ _ hk

/-- C6: posting a schema-valid synset payload with a fresh `wnid`
answers 201 with a `Location` header addressing the created synset item,
and a GET on that item against the resulting state answers 200 with a
document whose `wnid`, `words` and `gloss` fields equal the submitted
payload's fields. -/
theorem post_then_get_roundtrip (st : DBState) (j : JsonVal)
    (hvalid : validSynsetDoc j = true)
    (hfresh : findSynset st (getStrField j "wnid") = none) :
    (synsetCollectionPost st (some j)).1.status = 201
    ∧ (synsetCollectionPost st (some j)).1.location
        = some (urlSynsetItem (getStrField j "wnid"))
    ∧ (synsetItemGet (synsetCollectionPost st (some j)).2
        (getStrField j "wnid")).1.status = 200
    ∧ ∃ doc, (synsetItemGet (synsetCollectionPost st (some j)).2
          (getStrField j "wnid")).1.body = some doc
        ∧ dictGet doc "wnid" = some (JsonVal.str (getStrField j "wnid"))
        ∧ dictGet doc "words" = some (JsonVal.str (getStrField j "words"))
        ∧ dictGet doc "gloss" = some (JsonVal.str (getStrField j "gloss")) := by
  have hbody := jsonTruthy_of_validSynset j hvalid
  have hanyf : st.synsets.any
      (fun s => s.wnid == getStrField j "wnid") = false := by
    unfold findSynset at hfresh
    rw [List.find?_eq_none] at hfresh
    rw [List.any_eq_false]
    exact hfresh
  have e1 : synsetCollectionPost st (some j)
      = ({ status := 201,
           location := some (urlSynsetItem (getStrField j "wnid")) },
         { st with synsets := st.synsets ++
            [{ wnid := getStrField j "wnid",
               words := getStrField j "words",
               gloss := getStrField j "gloss" }] }) := by
    unfold synsetCollectionPost
    rw [if_neg (by rw [hbody]; exact fun hx => Bool.true_eq_false.mp hx)]
    dsimp only
    rw [if_neg (by rw [hvalid]; exact fun hx => Bool.true_eq_false.mp hx)]
    rw [if_neg (by rw [hanyf]; exact fun hx => Bool.false_eq_true.mp hx)]
  rw [e1]
  have hfind2 : findSynset
      { st with synsets := st.synsets ++
          [{ wnid := getStrField j "wnid",
             words := getStrField j "words",
             gloss := getStrField j "gloss" }] }
      (getStrField j "wnid")
      = some { wnid := getStrField j "wnid",
               words := getStrField j "words",
               gloss := getStrField j "gloss" } := by
    unfold findSynset
    dsimp only
    rw [List.find?_append]
    unfold findSynset at hfresh
    rw [hfresh]
    simp [List.find?]
  refine ⟨rfl, rfl, ?_, ?_⟩
  · unfold synsetItemGet
    rw [hfind2]
  · unfold synsetItemGet
    rw [hfind2]
    dsimp only
    refine ⟨_, rfl, ?_, ?_, ?_⟩ <;>
    · simp only [add_control_edit_synset, add_control_delete_synset]
      rw [dictGet_add_control_ne _ _ _ _ _ (by decide),
        dictGet_add_control_ne _ _ _ _ _ (by decide),
        dictGet_add_control_ne _ _ _ _ _ (by decide),
        dictGet_add_control_ne _ _ _ _ _ (by decide),
        dictGet_add_control_ne _ _ _ _ _ (by decide),
        dictGet_add_control_ne _ _ _ _ _ (by decide),
        dictGet_add_control_ne _ _ _ _ _ (by decide),
        dictGet_add_namespace_ne _ _ _ _ (by decide)]
      rfl

/-- Witness for C6: posting a fresh synset to the empty state. -/
theorem post_then_get_roundtrip_witness :
    (synsetCollectionPost { synsets := [], edges := [] }
        (some (JsonVal.obj [("wnid", JsonVal.str "n01"),
          ("words", JsonVal.str "x"),
          ("gloss", JsonVal.str "y")]))).1.status = 201
    ∧ (synsetCollectionPost { synsets := [], edges := [] }
        (some (JsonVal.obj [("wnid", JsonVal.str "n01"),
          ("words", JsonVal.str "x"),
          ("gloss", JsonVal.str "y")]))).1.location
        = some (urlSynsetItem (getStrField
            (JsonVal.obj [("wnid", JsonVal.str "n01"),
              ("words", JsonVal.str "x"),
              ("gloss", JsonVal.str "y")]) "wnid"))
    ∧ (synsetItemGet (synsetCollectionPost { synsets := [], edges := [] }
          (some (JsonVal.obj [("wnid", JsonVal.str "n01"),
            ("words", JsonVal.str "x"),
            ("gloss", JsonVal.str "y")]))).2
        (getStrField (JsonVal.obj [("wnid", JsonVal.str "n01"),
          ("words", JsonVal.str "x"),
          ("gloss", JsonVal.str "y")]) "wnid")).1.status = 200
    ∧ ∃ doc, (synsetItemGet
          (synsetCollectionPost { synsets := [], edges := [] }
            (some (JsonVal.obj [("wnid", JsonVal.str "n01"),
              ("words", JsonVal.str "x"),
              ("gloss", JsonVal.str "y")]))).2
          (getStrField (JsonVal.obj [("wnid", JsonVal.str "n01"),
            ("words", JsonVal.str "x"),
            ("gloss", JsonVal.str "y")]) "wnid")).1.body = some doc
        ∧ dictGet doc "wnid" = some (JsonVal.str (getStrField
            (JsonVal.obj [("wnid", JsonVal.str "n01"),
              ("words", JsonVal.str "x"),
              ("gloss", JsonVal.str "y")]) "wnid"))
        ∧ dictGet doc "words" = some (JsonVal.str (getStrField
            (JsonVal.obj [("wnid", JsonVal.str "n01"),
              ("words", JsonVal.str "x"),
              ("gloss", JsonVal.str "y")]) "words"))
        ∧ dictGet doc "gloss" = some (JsonVal.str (getStrField
            (JsonVal.obj [("wnid", JsonVal.str "n01"),
              ("words", JsonVal.str "x"),
              ("gloss", JsonVal.str "y")]) "gloss")) :=
  post_then_get_roundtrip { synsets := [], edges := [] }
    (JsonVal.obj [("wnid", JsonVal.str "n01"), ("words", JsonVal.str "x"),
      ("gloss", JsonVal.str "y")]) (by decide) (by decide)

theorem hasControl_ite (c : Prop) [Decidable c] (d : MasonDoc)
    (n u : String) (o : List (String × JsonVal)) (m : String) :
    hasControl (if c then add_control d n u o else d) m
      = ((decide c && (m == n)) || hasControl d m) := by
  by_cases hc : c
  · rw [if_pos hc, hasControl_add_control]
    simp [hc]
  · rw [if_neg hc]
    simp [hc]

/-- C7 counterexample: the string `"-1"` parses as the integer `-1`, so
a negative `start` is not rejected — the Synset Collection GET (and the
Hyponym Collection GET of an existing synset) answer 200, not the 400
the claim requires for a value that is not a non-negative integer. -/
theorem start_negative_not_rejected :
    pyInt "-1" = some (-1)
    ∧ (synsetCollectionGet 50 { synsets := [], edges := [] }
        (some "-1")).1.status = 200
    ∧ ¬ (synsetCollectionGet 50 { synsets := [], edges := [] }
          (some "-1")).1.status = 400
    ∧ (synsetHyponymCollectionGet 50
        { synsets := [⟨"n01", "a", "g"⟩], edges := [] } "n01"
        (some "-1")).1.status = 200
    ∧ ¬ (synsetHyponymCollectionGet 50
          { synsets := [⟨"n01", "a", "g"⟩], edges := [] } "n01"
          (some "-1")).1.status = 400 := by
  refine ⟨by decide, rfl, by decide, rfl, by decide⟩

/-- C7 (amended): the `start` query parameter is parsed with Python
`int`: a string that does not parse as an integer makes both collection
GET handlers fail with 400 InvalidInput; an absent parameter defaults
to 0 (the request behaves exactly like `start=0`); and any string that
parses as an integer — negative integers included — is accepted, the
Synset Collection GET answering 200. -/
theorem start_parsing (ps : Nat) (st : DBState) (wnid : String)
    (s : String) :
    (pyInt s = none →
      (synsetCollectionGet ps st (some s)).1.status = 400
      ∧ (synsetHyponymCollectionGet ps st wnid (some s)).1.status = 400)
    ∧ (synsetCollectionGet ps st none = synsetCollectionGet ps st (some "0"))
    ∧ (synsetHyponymCollectionGet ps st wnid none
        = synsetHyponymCollectionGet ps st wnid (some "0"))
    ∧ (∀ n : Int, pyInt s = some n →
        (synsetCollectionGet ps st (some s)).1.status = 200) := by
  refine ⟨fun hs => ⟨?_, ?_⟩, ?_, ?_, fun n hn => ?_⟩
  · unfold synsetCollectionGet parseStart
    dsimp only
    rw [hs]
    rfl
  · unfold synsetHyponymCollectionGet parseStart
    dsimp only
    rw [hs]
    rfl
  · unfold synsetCollectionGet parseStart
    dsimp only
    rw [show pyInt "0" = some 0 from by decide]
  · unfold synsetHyponymCollectionGet parseStart
    dsimp only
    rw [show pyInt "0" = some 0 from by decide]
  · unfold synsetCollectionGet parseStart
    dsimp only
    rw [hn]

/-- Witness for C7 (amended) at a concrete state and the non-integer
string "abc". -/
theorem start_parsing_witness :
    (pyInt "abc" = none →
      (synsetCollectionGet 2 { synsets := [], edges := [] }
          (some "abc")).1.status = 400
      ∧ (synsetHyponymCollectionGet 2 { synsets := [], edges := [] } "n01"
          (some "abc")).1.status = 400)
    ∧ (synsetCollectionGet 2 { synsets := [], edges := [] } none
        = synsetCollectionGet 2 { synsets := [], edges := [] } (some "0"))
    ∧ (synsetHyponymCollectionGet 2 { synsets := [], edges := [] } "n01" none
        = synsetHyponymCollectionGet 2 { synsets := [], edges := [] } "n01"
            (some "0"))
    ∧ (∀ n : Int, pyInt "abc" = some n →
        (synsetCollectionGet 2 { synsets := [], edges := [] }
            (some "abc")).1.status = 200) :=
  start_parsing 2 { synsets := [], edges := [] } "n01" "abc"

/-- C1: for every stored state and every `start >= 0` (as parsed from
the query string), the Synset Collection GET answers 200 with a page of
at most `SYNSET_PAGE_SIZE` items — exactly the slice of the
wnid-sorted table beginning at offset `start`, hence ordered by `wnid`
ascending — with the `prev` control present iff `start >= pageSize` and
the `next` control present iff more than a page of rows remains past the
offset. -/
theorem synset_collection_pagination (ps : Nat) (st : DBState)
    (s : String) (start : Int) (hs : pyInt s = some start)
    (h0 : 0 ≤ start) :
    (synsetCollectionGet ps st (some s)).1.status = 200
    ∧ ∃ doc, (synsetCollectionGet ps st (some s)).1.body = some doc
      ∧ dictGet doc "items" = some (JsonVal.arr
          (((sqlOffset (sortedSynsets st) start).take ps).map
            (fun x => JsonVal.obj (synsetEntryDoc x))))
      ∧ ((sqlOffset (sortedSynsets st) start).take ps).length ≤ ps
      ∧ (((sqlOffset (sortedSynsets st) start).take ps).map
          (fun x => x.wnid)).Pairwise (fun x y => x ≤ y)
      ∧ List.Perm (sortedSynsets st) st.synsets
      ∧ (hasControl doc "prev" = true ↔ (ps : Int) ≤ start)
      ∧ (hasControl doc "next" = true
          ↔ ps < st.synsets.length - start.toNat) := by
  have hsorted : List.Pairwise synLe (sortedSynsets st) :=
    List.sorted_insertionSort synLe st.synsets
  have hslice : List.Pairwise synLe
      ((sqlOffset (sortedSynsets st) start).take ps) := by
    refine hsorted.sublist ?_
    unfold sqlOffset
    exact (List.take_sublist _ _).trans (List.drop_sublist _ _)
  have hperm : List.Perm (sortedSynsets st) st.synsets :=
    List.perm_insertionSort synLe st.synsets
  have hlen : (sqlOffset (sortedSynsets st) start).length
      = st.synsets.length - start.toNat := by
    unfold sqlOffset
    rw [List.length_drop]
    unfold sortedSynsets
    rw [(List.perm_insertionSort synLe st.synsets).length_eq]
  have hb2p : hasControl (add_control_add_synset
      (add_control (add_namespace [] "imagenet_browser" LINK_RELATIONS_URL)
        "self" urlSynsetCollection [])) "prev" = false := by decide
  have hb2n : hasControl (add_control_add_synset
      (add_control (add_namespace [] "imagenet_browser" LINK_RELATIONS_URL)
        "self" urlSynsetCollection [])) "next" = false := by decide
  unfold synsetCollectionGet parseStart
  dsimp only
  rw [hs]
  dsimp only
  refine ⟨rfl, _, rfl, dictGet_dictSet_self _ _ _, ?_, ?_, hperm, ?_, ?_⟩
  · rw [List.length_take]
    exact min_le_left _ _
  · exact List.Pairwise.map _ (fun a b h => h) hslice
  · rw [hasControl_dictSet_ne _ _ _ _ (by decide), hasControl_ite,
      hasControl_ite, hb2p]
    simp [decide_eq_true_iff]
  · rw [hasControl_dictSet_ne _ _ _ _ (by decide), hasControl_ite,
      hasControl_ite, hb2n]
    rw [hlen]
    simp [decide_eq_true_iff]

/-- Witness for C1 at a two-synset state (stored unsorted), page size 1
and start 0. -/
theorem synset_collection_pagination_witness :
    (synsetCollectionGet 1
        { synsets := [⟨"n02", "b", "gb"⟩, ⟨"n01", "a", "ga"⟩], edges := [] }
        (some "0")).1.status = 200
    ∧ ∃ doc, (synsetCollectionGet 1
          { synsets := [⟨"n02", "b", "gb"⟩, ⟨"n01", "a", "ga"⟩],
            edges := [] } (some "0")).1.body = some doc
      ∧ dictGet doc "items" = some (JsonVal.arr
          (((sqlOffset (sortedSynsets
              { synsets := [⟨"n02", "b", "gb"⟩, ⟨"n01", "a", "ga"⟩],
                edges := [] }) 0).take 1).map
            (fun x => JsonVal.obj (synsetEntryDoc x))))
      ∧ ((sqlOffset (sortedSynsets
            { synsets := [⟨"n02", "b", "gb"⟩, ⟨"n01", "a", "ga"⟩],
              edges := [] }) 0).take 1).length ≤ 1
      ∧ (((sqlOffset (sortedSynsets
            { synsets := [⟨"n02", "b", "gb"⟩, ⟨"n01", "a", "ga"⟩],
              edges := [] }) 0).take 1).map
          (fun x => x.wnid)).Pairwise (fun x y => x ≤ y)
      ∧ List.Perm (sortedSynsets
            { synsets := [⟨"n02", "b", "gb"⟩, ⟨"n01", "a", "ga"⟩],
              edges := [] })
          (DBState.mk [⟨"n02", "b", "gb"⟩, ⟨"n01", "a", "ga"⟩] []).synsets
      ∧ (hasControl doc "prev" = true ↔ ((1 : Nat) : Int) ≤ 0)
      ∧ (hasControl doc "next" = true
          ↔ 1 < (DBState.mk [⟨"n02", "b", "gb"⟩, ⟨"n01", "a", "ga"⟩]
              []).synsets.length - (0 : Int).toNat) :=
  synset_collection_pagination 1
    { synsets := [⟨"n02", "b", "gb"⟩, ⟨"n01", "a", "ga"⟩], edges := [] }
    "0" 0 (by decide) (by decide)
